import Mathlib

/-!
Shallow embedding of the primitive_db record store
(src/primitive_db/core.py and src/primitive_db/parser.py).

Python scalar values (int, bool, str) become the tagged type Value.
Python dicts become association lists with unique keys; dict assignment
is setKey, dict lookup is List.lookup.  Python exceptions become the
PyError sum (typed database errors plus the untyped builtin ValueError
raised by tuple destructuring).

Python lists are mutable objects passed by reference.  To keep the
caller-visible mutation observable, each top-level operation that
receives a caller-owned collection returns a pair: the first component
is the contents of the caller's collection object after the call
(unchanged for pure operations; appended/assigned in place for insert
and update, mirroring list.append and item assignment in the source),
the second is the Python return value or the raised exception.
-/

deriving instance DecidableEq for Except

namespace PrimitiveDb

/-- Python str.strip(): remove leading and trailing whitespace. -/
def pyStrip (s : String) : String :=
  String.mk
    (((s.data.dropWhile Char.isWhitespace).reverse.dropWhile
        Char.isWhitespace).reverse)

/-- Python str.lower() (letter-case folding of each character). -/
def pyLower (s : String) : String := String.mk (s.data.map Char.toLower)

/-- A scalar value of the store: Python int, bool or str. -/
inductive Value where
  | int (n : Int)
  | bool (b : Bool)
  | str (s : String)
deriving DecidableEq

/-- Python str(value) as used when raising InvalidValueError. -/
def Value.pyStr : Value → String
  | .int n => toString n
  | .bool b => if b then "True" else "False"
  | .str s => s

/-- Python equality between scalar values.  In Python bool is a subclass
of int, so True == 1 and False == 0; all other cross-type comparisons of
these scalars are unequal. -/
def pyEq : Value → Value → Bool
  | .int a, .int b => a == b
  | .bool a, .bool b => a == b
  | .str a, .str b => a == b
  | .int a, .bool b => a == (if b then (1 : Int) else 0)
  | .bool a, .int b => (if a then (1 : Int) else 0) == b
  | _, _ => false

/-- Python row.get(key) == value: a missing key yields None, which is
unequal to every scalar. -/
def optPyEq : Option Value → Value → Bool
  | none, _ => false
  | some w, v => pyEq w v

/-- A schema column: {"name": ..., "type": ...}. -/
structure Column where
  name : String
  type : String
deriving DecidableEq

/-- The value stored under a table name in the metadata dict.
columnsList models an entry whose "columns" key holds a list;
malformed models an entry whose "columns" key is absent or not a list
(the shape _get_schema rejects with TableSchemaError). -/
inductive TableEntry where
  | columnsList (cols : List Column)
  | malformed
deriving DecidableEq

/-- A row: Python dict from column name to scalar, insertion ordered,
unique keys. -/
abbrev Row := List (String × Value)

/-- A parsed set/where clause: Python dict from key to scalar. -/
abbrev Dict := List (String × Value)

/-- Database metadata: Python dict from table name to its entry. -/
abbrev Metadata := List (String × TableEntry)

/-- Python dict item assignment d[k] = v: replace the value in place if
the key is present (keeping its position), else append the new pair. -/
def setKey {α : Type} (m : List (String × α)) (k : String) (v : α) :
    List (String × α) :=
  if (m.lookup k).isSome then
    m.map (fun p => if p.1 = k then (k, v) else p)
  else
    m ++ [(k, v)]

/-- Modelled from the spec: the reserved identity column name, a named
constant shared by Schema Manager and Row Engine (constants.py is not in
the sources; core.py itself hardcodes "ID" in insert and update). -/
def RESERVED_ID_COLUMN : String := "ID"

/-- Modelled from the spec: the supported column type set {int, bool,
string}, with "str" as the string type token handled by _validate_value
(constants.py is not in the sources). -/
def SUPPORTED_TYPES : List String := ["int", "bool", "str"]

/-- The error kinds core operations can raise.  invalidValue,
tableAlreadyExists, tableDoesNotExist and tableSchemaError are the typed
errors of core.py; valueError is Python's untyped builtin ValueError, as
raised by tuple destructuring of a dict with item count not equal 1. -/
inductive PyError where
  | invalidValue (v : String)
  | tableAlreadyExists (n : String)
  | tableDoesNotExist (n : String)
  | tableSchemaError (n : String)
  | valueError (msg : String)
deriving DecidableEq

/-- core._get_schema: metadata[table_name]["columns"], or
TableDoesNotExistError / TableSchemaError. -/
def _get_schema (metadata : Metadata) (tableName : String) :
    Except PyError (List Column) :=
  match metadata.lookup tableName with
  | none => .error (.tableDoesNotExist tableName)
  | some (.columnsList cols) => .ok cols
  | some .malformed => .error (.tableSchemaError tableName)

/-- core._validate_value: check a scalar against a declared column type.
The Python int check is isinstance(value, bool) or not isinstance(value,
int): a boolean is rejected for an int column. -/
def _validate_value (colType : String) (value : Value) :
    Except PyError Value :=
  if colType = "int" then
    match value with
    | .int _ => .ok value
    | v => .error (.invalidValue v.pyStr)
  else if colType = "bool" then
    match value with
    | .bool _ => .ok value
    | v => .error (.invalidValue v.pyStr)
  else if colType = "str" then
    match value with
    | .str _ => .ok value
    | v => .error (.invalidValue v.pyStr)
  else
    .error (.invalidValue colType)

/-- Python column_token.split(":", 1) guarded by ":" in column_token:
split a character list at the first occurrence of the separator, or none
when the separator does not occur. -/
def splitOnFirst (sep : Char) : List Char → Option (List Char × List Char)
  | [] => none
  | c :: cs =>
    if c = sep then some ([], cs)
    else
      match splitOnFirst sep cs with
      | some (a, b) => some (c :: a, b)
      | none => none

/-- core._parse_column_type: parse one "name:type" token. -/
def _parse_column_type (columnToken : String) :
    Except PyError (String × String) :=
  match splitOnFirst ':' columnToken.data with
  | none => .error (.invalidValue columnToken)
  | some (n, t) =>
    let name := pyStrip (String.mk n)
    let colType := pyStrip (String.mk t)
    if name = "" ∨ colType = "" then .error (.invalidValue columnToken)
    else if name = RESERVED_ID_COLUMN then .error (.invalidValue name)
    else if ¬ (colType ∈ SUPPORTED_TYPES) then
      .error (.invalidValue colType)
    else .ok (name, colType)

/-- The column loop of core.create_table: parse each token, reject a
name already seen, append the parsed column. -/
def parseColumns : List String → List Column → List String →
    Except PyError (List Column)
  | [], acc, _ => .ok acc
  | tok :: rest, acc, seen =>
    match _parse_column_type tok with
    | .error e => .error e
    | .ok (n, t) =>
      if n ∈ seen then .error (.invalidValue n)
      else parseColumns rest (acc ++ [⟨n, t⟩]) (seen ++ [n])

/-- core.create_table.  The metadata dict is never mutated (the source
copies it with dict(metadata)), so the caller-visible first component is
always the input metadata. -/
def create_table (metadata : Metadata) (tableName : String)
    (columns : List String) : Metadata × Except PyError Metadata :=
  let tn := pyStrip tableName
  if tn = "" then (metadata, .error (.invalidValue tn))
  else if (metadata.lookup tn).isSome then
    (metadata, .error (.tableAlreadyExists tn))
  else if columns = [] then (metadata, .error (.invalidValue "<columns>"))
  else
    match parseColumns columns [⟨RESERVED_ID_COLUMN, "int"⟩]
        [RESERVED_ID_COLUMN] with
    | .error e => (metadata, .error e)
    | .ok parsed => (metadata, .ok (setKey metadata tn (.columnsList parsed)))

/-- core.drop_table.  The source copies the dict before del, so the
caller's metadata is untouched.  A Python dict has unique keys, so
removing the key is filtering out its single pair. -/
def drop_table (metadata : Metadata) (tableName : String) :
    Metadata × Except PyError Metadata :=
  let tn := pyStrip tableName
  if (metadata.lookup tn).isNone then
    (metadata, .error (.tableDoesNotExist tn))
  else
    (metadata, .ok (metadata.filter (fun p => p.1 ≠ tn)))

/-- Python isinstance(x, int) applied to a scalar: true for int and also
for bool (bool is a subclass of int, True counting as 1 and False as 0). -/
def asPyInt : Value → Option Int
  | .int n => some n
  | .bool b => some (if b then 1 else 0)
  | .str _ => none

/-- The existing_ids comprehension of core.insert: the "ID" values of
the rows for which isinstance(row.get("ID"), int) holds. -/
def existing_ids (tableData : List Row) : List Int :=
  tableData.filterMap (fun row => (row.lookup "ID").bind asPyInt)

/-- core.insert's new id: (max(existing_ids) + 1) if existing_ids else 1. -/
def new_id_of (tableData : List Row) : Int :=
  match existing_ids tableData with
  | [] => 1
  | x :: xs => xs.foldl max x + 1

/-- The claim's formula for the new id: max of the existing identity
values with default 0 when there are none (stated for comparison with
new_id_of, which the source computes by a conditional). -/
def maxIdDefault0 (tableData : List Row) : Int :=
  match existing_ids tableData with
  | [] => 0
  | x :: xs => xs.foldl max x

/-- The row-building loop of core.insert: for each remaining schema
column paired with its supplied value, validate and assign into the row. -/
def insertLoop : List (Column × Value) → Row → Except PyError Row
  | [], row => .ok row
  | (c, v) :: rest, row =>
    match _validate_value c.type v with
    | .error e => .error e
    | .ok w => insertLoop rest (setKey row c.name w)

/-- core.insert.  The expected count is len(schema) - 1 over Python
ints, which is -1 for an empty (corrupted) schema, so the comparison is
over Int.  On success the source appends the new row to the caller's
list object and returns that same object: the caller-visible component
equals the returned list.  On failure the append never ran and the
caller's list is unchanged. -/
def insert (metadata : Metadata) (tableName : String) (tableData : List Row)
    (values : List Value) : List Row × Except PyError (List Row × Int) :=
  match _get_schema metadata tableName with
  | .error e => (tableData, .error e)
  | .ok schema =>
    if (values.length : Int) ≠ (schema.length : Int) - 1 then
      (tableData,
        .error (.invalidValue ("values_count=" ++ toString values.length)))
    else
      let newId := new_id_of tableData
      match insertLoop ((schema.drop 1).zip values)
          [("ID", Value.int newId)] with
      | .error e => (tableData, .error e)
      | .ok row => (tableData ++ [row], .ok (tableData ++ [row], newId))

/-- core.select.  A falsy where clause (None or the empty dict) returns
list(table_data), a fresh copy with the same elements; otherwise the
dict is destructured into exactly one pair (ValueError when it has two
or more items) and the matching rows are collected into a new list.  The
caller's list is never mutated. -/
def select (tableData : List Row) (whereClause : Option Dict) :
    List Row × Except PyError (List Row) :=
  match whereClause with
  | none => (tableData, .ok tableData)
  | some [] => (tableData, .ok tableData)
  | some [(key, value)] =>
    (tableData, .ok (tableData.filter (fun row => optPyEq (row.lookup key) value)))
  | some _ =>
    (tableData, .error (.valueError "too many values to unpack (expected 1)"))

/-- The types_map comprehension of core.update: a dict from column name
to column type, later duplicates overwriting earlier ones. -/
def typesMapOf (schema : List Column) : List (String × String) :=
  schema.foldl (fun m c => setKey m c.name c.type) []

/-- The inner set-clause loop of core.update on one matched row: for
each assignment in order, fail if the key is not a declared column, else
validate the value and assign it into the row in place.  Returns the
(possibly partially) updated row and the error that stopped the loop,
if any. -/
def applySet (typesMap : List (String × String)) :
    Row → Dict → Row × Option PyError
  | row, [] => (row, none)
  | row, (k, v) :: rest =>
    match typesMap.lookup k with
    | none => (row, some (.invalidValue k))
    | some t =>
      match _validate_value t v with
      | .error e => (row, some e)
      | .ok w => applySet typesMap (setKey row k w) rest

/-- The row loop of core.update: each row matching the where pair has
the set clause applied in place; an error propagates at once, leaving
rows processed earlier already updated, the failing row partially
updated, and later rows untouched. -/
def updateRows (typesMap : List (String × String)) (wKey : String)
    (wVal : Value) (setClause : Dict) :
    List Row → List Row × Nat × Option PyError
  | [] => ([], 0, none)
  | row :: rest =>
    if optPyEq (row.lookup wKey) wVal then
      match applySet typesMap row setClause with
      | (row₁, some e) => (row₁ :: rest, 0, some e)
      | (row₁, none) =>
        let r := updateRows typesMap wKey wVal setClause rest
        (row₁ :: r.1, r.2.1 + 1, r.2.2)
    else
      let r := updateRows typesMap wKey wVal setClause rest
      (row :: r.1, r.2.1, r.2.2)

/-- core.update.  Checks that the set clause does not touch "ID", then
destructures the where clause into exactly one pair (ValueError when the
dict has zero or several items), then updates matching rows in place.
The caller-visible first component is the caller's list contents after
the call: mutated row by row, also when an error aborts the loop. -/
def update (metadata : Metadata) (tableName : String) (tableData : List Row)
    (setClause : Dict) (whereClause : Dict) :
    List Row × Except PyError (List Row × Nat) :=
  match _get_schema metadata tableName with
  | .error e => (tableData, .error e)
  | .ok schema =>
    if (setClause.lookup "ID").isSome then
      (tableData, .error (.invalidValue "ID"))
    else
      match whereClause with
      | [(wKey, wVal)] =>
        let r := updateRows (typesMapOf schema) wKey wVal setClause tableData
        match r.2.2 with
        | some e => (r.1, .error e)
        | none => (r.1, .ok (r.1, r.2.1))
      | [] =>
        (tableData, .error (.valueError "not enough values to unpack (expected 1, got 0)"))
      | _ =>
        (tableData, .error (.valueError "too many values to unpack (expected 1)"))

/-- core.delete.  Destructures the where clause into exactly one pair,
then builds a new list of the rows that do not match; the caller's list
is never mutated. -/
def delete (tableData : List Row) (whereClause : Dict) :
    List Row × Except PyError (List Row × Nat) :=
  match whereClause with
  | [(key, value)] =>
    let newData := tableData.filter (fun row => !(optPyEq (row.lookup key) value))
    (tableData, .ok (newData, tableData.length - newData.length))
  | [] =>
    (tableData, .error (.valueError "not enough values to unpack (expected 1, got 0)"))
  | _ =>
    (tableData, .error (.valueError "too many values to unpack (expected 1)"))

/-- The fullmatch of the regular expression -?\d+ in parser.parse_scalar:
an optional leading minus followed by one or more digits. -/
def isIntToken (s : String) : Bool :=
  match s.data with
  | '-' :: ds => !ds.isEmpty && ds.all Char.isDigit
  | ds => !ds.isEmpty && ds.all Char.isDigit

/-- Python int() on a token accepted by isIntToken. -/
def digitsToNat (ds : List Char) : Nat :=
  ds.foldl (fun a c => a * 10 + (c.toNat - '0'.toNat)) 0

/-- Python int(s) for an optionally minus-signed digit string. -/
def strToInt (s : String) : Int :=
  match s.data with
  | '-' :: ds => -(digitsToNat ds : Int)
  | ds => (digitsToNat ds : Int)

/-- parser.parse_scalar: strip the token; a double-quoted token is the
enclosed string with no further conversion; unquoted true/false in any
letter case is a boolean; an unquoted optionally minus-signed digit
string is an integer; anything else stays a string. -/
def parse_scalar (raw : String) : Value :=
  let s := pyStrip raw
  if 2 ≤ s.data.length ∧ s.data.head? = some '"' ∧ s.data.getLast? = some '"' then
    .str (String.mk ((s.data.drop 1).dropLast))
  else if pyLower s = "true" then .bool true
  else if pyLower s = "false" then .bool false
  else if isIntToken s then .int (strToInt s)
  else .str s

/-- A concrete metadata fixture: one table "t" with schema ID:int, a:int. -/
def exampleMeta : Metadata :=
  [("t", .columnsList [⟨"ID", "int"⟩, ⟨"a", "int"⟩])]

/-- A concrete row of table "t" with the given identity and payload. -/
def exRow (i a : Int) : Row := [("ID", Value.int i), ("a", Value.int a)]

/-- Every error _validate_value raises is an InvalidValueError. -/
theorem validate_error_shape (t : String) (v : Value) (e : PyError)
    (h : _validate_value t v = .error e) : ∃ s, e = .invalidValue s := by
  unfold _validate_value at h
  split_ifs at h <;> cases v <;>
    first
      | exact Except.noConfusion h
      | (simp only [Except.error.injEq] at h; exact ⟨_, h.symm⟩)

/-- Every error the insert row-building loop raises is an
InvalidValueError (it only raises through _validate_value). -/
theorem insertLoop_error_shape :
    ∀ pairs row e, insertLoop pairs row = .error e →
      ∃ s, e = .invalidValue s := by
  intro pairs
  induction pairs with
  | nil => intro row e h; simp [insertLoop] at h
  | cons p rest ih =>
    intro row e h
    obtain ⟨c, v⟩ := p
    simp only [insertLoop] at h
    cases hv : _validate_value c.type v with
    | error e₁ =>
      rw [hv] at h
      simp only [Except.error.injEq] at h
      exact h ▸ validate_error_shape c.type v e₁ hv
    | ok w =>
      rw [hv] at h
      exact ih _ _ h

/-- Replacing a present key in place leaves it found with the new value. -/
theorem lookup_map_replace {α : Type} (k : String) (v : α) :
    ∀ (m : List (String × α)), (m.lookup k).isSome →
      (m.map (fun p => if p.1 = k then (k, v) else p)).lookup k = some v := by
  intro m
  induction m with
  | nil => intro hs; simp [List.lookup] at hs
  | cons p rest ih =>
    obtain ⟨a, b⟩ := p
    intro hs
    by_cases hp : a = k
    · subst hp
      have hhd : (if (a, b).1 = a then (a, v) else (a, b)) = (a, v) :=
        if_pos rfl
      rw [List.map_cons, hhd]
      simp [List.lookup]
    · have hk : (k == a) = false := by
        rw [beq_eq_false_iff_ne]
        exact fun hkk => hp hkk.symm
      simp only [List.map_cons, if_neg hp]
      simp only [List.lookup, hk] at hs ⊢
      exact ih hs

/-- Appending a pair with an absent key makes it the one found. -/
theorem lookup_append_right {α : Type} (k : String) (v : α) :
    ∀ (m : List (String × α)), m.lookup k = none →
      (m ++ [(k, v)]).lookup k = some v := by
  intro m
  induction m with
  | nil => simp [List.lookup]
  | cons p rest ih =>
    obtain ⟨a, b⟩ := p
    intro hn
    simp only [List.cons_append, List.lookup] at hn ⊢
    cases hk : (k == a) with
    | true => simp [hk] at hn
    | false =>
      simp only [hk]
      exact ih (by simpa [hk] using hn)

/-- Looking up a key just assigned by setKey yields the assigned value. -/
theorem lookup_setKey_self {α : Type} (m : List (String × α)) (k : String)
    (v : α) : (setKey m k v).lookup k = some v := by
  unfold setKey
  split_ifs with hs
  · exact lookup_map_replace k v m hs
  · exact lookup_append_right k v m (Option.not_isSome_iff_eq_none.mp hs)

/-- splitOnFirst finds nothing exactly when the separator is absent. -/
theorem splitOnFirst_eq_none_iff (sep : Char) :
    ∀ l, splitOnFirst sep l = none ↔ ¬ sep ∈ l := by
  intro l
  induction l with
  | nil => simp [splitOnFirst]
  | cons c cs ih =>
    simp only [splitOnFirst]
    by_cases hc : c = sep
    · simp [hc]
    · cases hs : splitOnFirst sep cs with
      | none =>
        have hcs : ¬ sep ∈ cs := ih.mp hs
        have hsc : sep ≠ c := fun h => hc h.symm
        simp [hc, hs, hcs, hsc]
      | some p =>
        obtain ⟨a, b⟩ := p
        have hcs : sep ∈ cs := by
          by_contra hn
          rw [ih.mpr hn] at hs
          exact Option.noConfusion hs
        simp [hc, hs, hcs]

/-- The source's new id equals the claim's max-with-default-0 plus one. -/
theorem new_id_of_eq_maxIdDefault0 (rows : List Row) :
    new_id_of rows = maxIdDefault0 rows + 1 := by
  unfold new_id_of maxIdDefault0
  cases existing_ids rows <;> simp

/-- C2: validation against the int type succeeds exactly on integers and
rejects booleans; the bool type accepts exactly booleans; the str type
accepts exactly text scalars; every unsupported declared type always
fails with InvalidValueError. -/
theorem validate_value_types :
    (∀ v, (∃ w, _validate_value "int" v = .ok w) ↔ ∃ n, v = Value.int n) ∧
    (∀ b, _validate_value "int" (Value.bool b) =
        .error (.invalidValue (Value.pyStr (Value.bool b)))) ∧
    (∀ v, (∃ w, _validate_value "bool" v = .ok w) ↔ ∃ b, v = Value.bool b) ∧
    (∀ v, (∃ w, _validate_value "str" v = .ok w) ↔ ∃ s, v = Value.str s) ∧
    (∀ t v, ¬ t ∈ SUPPORTED_TYPES →
        _validate_value t v = .error (.invalidValue t)) := by
  refine ⟨?_, ?_, ?_, ?_, ?_⟩
  · intro v; cases v <;> simp [_validate_value]
  · intro b; simp [_validate_value]
  · intro v; cases v <;> simp [_validate_value]
  · intro v; cases v <;> simp [_validate_value]
  · intro t v ht
    simp only [SUPPORTED_TYPES, List.mem_cons, List.mem_singleton,
      not_or] at ht
    obtain ⟨h1, h2, h3⟩ := ht
    simp [_validate_value, h1, h2, h3]

/-- C2 witness: an unsupported declared type "float" fails on a sample
value, via the general theorem. -/
theorem validate_value_types_witness :
    _validate_value "float" (Value.int 3) = .error (.invalidValue "float") :=
  validate_value_types.2.2.2.2 "float" (Value.int 3) (by decide)

/-- C5: delete with a single-key where clause keeps exactly the rows not
matching the pair, in their original relative order, and reports the
length difference; when nothing matches it returns the input sequence
and count 0. -/
theorem delete_filters_and_counts :
    (∀ rows k v newData cnt,
        (delete rows [(k, v)]).2 = .ok (newData, cnt) →
        newData = rows.filter (fun row => !(optPyEq (row.lookup k) v)) ∧
        cnt = rows.length - newData.length ∧
        newData.Sublist rows ∧
        (∀ row ∈ newData, optPyEq (row.lookup k) v = false) ∧
        (∀ row ∈ rows, optPyEq (row.lookup k) v = false → row ∈ newData)) ∧
    (∀ rows k v, (∀ row ∈ rows, optPyEq (row.lookup k) v = false) →
        (delete rows [(k, v)]).2 = .ok (rows, 0)) := by
  constructor
  · intro rows k v newData cnt h
    simp only [delete, Except.ok.injEq, Prod.mk.injEq] at h
    obtain ⟨hdata, hcnt⟩ := h
    subst hdata
    refine ⟨rfl, hcnt.symm, List.filter_sublist rows, ?_, ?_⟩
    · intro row hrow
      have := List.of_mem_filter hrow
      simpa using this
    · intro row hrow hfalse
      exact List.mem_filter.mpr ⟨hrow, by simp [hfalse]⟩
  · intro rows k v hall
    have hfe : rows.filter (fun row => !(optPyEq (row.lookup k) v)) = rows := by
      apply List.filter_eq_self.mpr
      intro row hrow
      simp [hall row hrow]
    simp [delete, hfe]

/-- C5 witness: deleting with a non-matching filter from a one-row table
returns the same sequence and count 0, via the general theorem. -/
theorem delete_filters_and_counts_witness :
    (delete [exRow 1 7] [("a", Value.int 99)]).2 = .ok ([exRow 1 7], 0) :=
  delete_filters_and_counts.2 [exRow 1 7] "a" (Value.int 99) (by decide)

/-- C9: update and delete destructure the where clause into exactly one
pair, so a clause with zero or several keys raises the untyped builtin
ValueError (distinct from the typed InvalidValueError), while select
treats an absent or empty clause as no filter and returns all rows. -/
theorem where_clause_arity_value_error :
    (∀ (rows : List Row) (wc : Dict), wc.length ≠ 1 →
        ∃ s, (delete rows wc).2 = .error (.valueError s) ∧
          (delete rows wc).1 = rows) ∧
    (∀ m tn rows setClause (wc : Dict) schema,
        _get_schema m tn = .ok schema →
        setClause.lookup "ID" = none →
        wc.length ≠ 1 →
        ∃ s, (update m tn rows setClause wc).2 = .error (.valueError s) ∧
          (update m tn rows setClause wc).1 = rows) ∧
    (∀ s t, PyError.valueError s ≠ PyError.invalidValue t) ∧
    (∀ rows, select rows none = (rows, .ok rows)) ∧
    (∀ rows, select rows (some []) = (rows, .ok rows)) := by
  refine ⟨?_, ?_, ?_, fun _ => rfl, fun _ => rfl⟩
  · intro rows wc hlen
    match wc with
    | [] => exact ⟨_, rfl, rfl⟩
    | [(k, v)] => simp at hlen
    | (k₁, v₁) :: (k₂, v₂) :: t => exact ⟨_, rfl, rfl⟩
  · intro m tn rows setClause wc schema hschema hid hlen
    have hid' : (setClause.lookup "ID").isSome = false := by simp [hid]
    match wc with
    | [] =>
      exact ⟨"not enough values to unpack (expected 1, got 0)",
        by simp [update, hschema, hid'], by simp [update, hschema, hid']⟩
    | [(k, v)] => simp at hlen
    | (k₁, v₁) :: (k₂, v₂) :: t =>
      exact ⟨"too many values to unpack (expected 1)",
        by simp [update, hschema, hid'], by simp [update, hschema, hid']⟩
  · intro s t h
    exact PyError.noConfusion h

/-- C9 witness: a two-key where clause makes delete raise ValueError and
leaves the caller's rows alone, via the general theorem. -/
theorem where_clause_arity_value_error_witness :
    ∃ s, (delete [exRow 1 7]
        [("a", Value.int 7), ("ID", Value.int 1)]).2 =
      .error (.valueError s) ∧
      (delete [exRow 1 7] [("a", Value.int 7), ("ID", Value.int 1)]).1 =
        [exRow 1 7] :=
  where_clause_arity_value_error.1 [exRow 1 7]
    [("a", Value.int 7), ("ID", Value.int 1)] (by decide)

/-- C10: scalar parsing of a raw token after stripping: a double-quoted
token is the enclosed string with no further conversion (a quoted "true"
or "1" stays a string); unquoted true/false in any letter case is a
boolean; an unquoted optional-minus digit string is an integer; every
other token stays a string. -/
theorem parse_scalar_cases :
    (∀ raw, 2 ≤ (pyStrip raw).data.length →
        (pyStrip raw).data.head? = some '"' →
        (pyStrip raw).data.getLast? = some '"' →
        parse_scalar raw =
          .str (String.mk (((pyStrip raw).data.drop 1).dropLast))) ∧
    (∀ raw, ¬ (2 ≤ (pyStrip raw).data.length ∧
          (pyStrip raw).data.head? = some '"' ∧
          (pyStrip raw).data.getLast? = some '"') →
        pyLower (pyStrip raw) = "true" → parse_scalar raw = .bool true) ∧
    (∀ raw, ¬ (2 ≤ (pyStrip raw).data.length ∧
          (pyStrip raw).data.head? = some '"' ∧
          (pyStrip raw).data.getLast? = some '"') →
        pyLower (pyStrip raw) = "false" → parse_scalar raw = .bool false) ∧
    (∀ raw, ¬ (2 ≤ (pyStrip raw).data.length ∧
          (pyStrip raw).data.head? = some '"' ∧
          (pyStrip raw).data.getLast? = some '"') →
        pyLower (pyStrip raw) ≠ "true" →
        pyLower (pyStrip raw) ≠ "false" →
        isIntToken (pyStrip raw) = true →
        parse_scalar raw = .int (strToInt (pyStrip raw))) ∧
    (∀ raw, ¬ (2 ≤ (pyStrip raw).data.length ∧
          (pyStrip raw).data.head? = some '"' ∧
          (pyStrip raw).data.getLast? = some '"') →
        pyLower (pyStrip raw) ≠ "true" →
        pyLower (pyStrip raw) ≠ "false" →
        isIntToken (pyStrip raw) = false →
        parse_scalar raw = .str (pyStrip raw)) ∧
    (parse_scalar " \"true\" " = .str "true" ∧
      parse_scalar "\"1\"" = .str "1" ∧
      parse_scalar "TRUE" = .bool true ∧
      parse_scalar "False" = .bool false ∧
      parse_scalar "-12" = .int (-12) ∧
      parse_scalar "007" = .int 7 ∧
      parse_scalar "1a" = .str "1a") := by
  refine ⟨?_, ?_, ?_, ?_, ?_, by decide, by decide, by decide, by decide,
    by decide, by decide, by decide⟩
  · intro raw h1 h2 h3
    simp only [parse_scalar]
    rw [if_pos ⟨h1, h2, h3⟩]
  · intro raw hq ht
    simp only [parse_scalar]
    rw [if_neg hq, if_pos ht]
  · intro raw hq hf
    have hnt : pyLower (pyStrip raw) ≠ "true" := by
      rw [hf]; decide
    simp only [parse_scalar]
    rw [if_neg hq, if_neg hnt, if_pos hf]
  · intro raw hq ht hf hi
    simp only [parse_scalar]
    rw [if_neg hq, if_neg ht, if_neg hf, if_pos hi]
  · intro raw hq ht hf hi
    simp only [parse_scalar]
    rw [if_neg hq, if_neg ht, if_neg hf,
      if_neg (by simp [hi] : ¬ isIntToken (pyStrip raw) = true)]

/-- C10 witness: the integer case of the general theorem at the token
" -12 ". -/
theorem parse_scalar_cases_witness :
    parse_scalar " -12 " = .int (strToInt (pyStrip " -12 ")) :=
  parse_scalar_cases.2.2.2.1 " -12 " (by decide) (by decide) (by decide)
    (by decide)

/-- C1: insert assigns the new identity as one more than the maximum of
the existing identity values (default 0 when none), and concretely: a
fresh table gets ids 1, 2, 3 in sequence, and after deleting the row
with id 2 the next insert gets id 4, never reusing the deleted id. -/
theorem insert_assigns_max_plus_one :
    (∀ m tn rows vals r id,
        (insert m tn rows vals).2 = .ok (r, id) →
        id = maxIdDefault0 rows + 1) ∧
    (insert exampleMeta "t" [] [Value.int 7]).2 = .ok ([exRow 1 7], 1) ∧
    (insert exampleMeta "t" [exRow 1 7] [Value.int 8]).2 =
      .ok ([exRow 1 7, exRow 2 8], 2) ∧
    (insert exampleMeta "t" [exRow 1 7, exRow 2 8] [Value.int 9]).2 =
      .ok ([exRow 1 7, exRow 2 8, exRow 3 9], 3) ∧
    (delete [exRow 1 7, exRow 2 8, exRow 3 9] [("ID", Value.int 2)]).2 =
      .ok ([exRow 1 7, exRow 3 9], 1) ∧
    (insert exampleMeta "t" [exRow 1 7, exRow 3 9] [Value.int 5]).2 =
      .ok ([exRow 1 7, exRow 3 9, exRow 4 5], 4) := by
  refine ⟨?_, by decide, by decide, by decide, by decide, by decide⟩
  intro m tn rows vals r id h
  unfold insert at h
  cases hg : _get_schema m tn with
  | error e => rw [hg] at h; exact Except.noConfusion h
  | ok schema =>
    simp only [hg] at h
    by_cases hlen : (vals.length : Int) ≠ (schema.length : Int) - 1
    · rw [if_pos hlen] at h
      exact Except.noConfusion h
    · rw [if_neg hlen] at h
      cases hl : insertLoop ((schema.drop 1).zip vals)
          [("ID", Value.int (new_id_of rows))] with
      | error e => rw [hl] at h; exact Except.noConfusion h
      | ok row =>
        rw [hl] at h
        simp only [Except.ok.injEq, Prod.mk.injEq] at h
        rw [← h.2, new_id_of_eq_maxIdDefault0]

/-- C1 witness: the general formula applied to the first concrete insert
into the empty table. -/
theorem insert_assigns_max_plus_one_witness :
    (1 : Int) = maxIdDefault0 ([] : List Row) + 1 :=
  insert_assigns_max_plus_one.1 exampleMeta "t" [] [Value.int 7]
    [exRow 1 7] 1 (by decide)

/-- C3: any failing insert leaves the caller's row collection exactly as
it was (no partial row appended); a wrong value count fails with
InvalidValueError, and a validation failure of any supplied value makes
the whole insert fail with InvalidValueError. -/
theorem insert_invalid_leaves_rows_unchanged :
    (∀ m tn rows vals e, (insert m tn rows vals).2 = .error e →
        (insert m tn rows vals).1 = rows) ∧
    (∀ m tn rows vals schema, _get_schema m tn = .ok schema →
        (vals.length : Int) ≠ (schema.length : Int) - 1 →
        (insert m tn rows vals).2 =
          .error (.invalidValue ("values_count=" ++ toString vals.length))) ∧
    (∀ m tn rows vals schema e, _get_schema m tn = .ok schema →
        (vals.length : Int) = (schema.length : Int) - 1 →
        insertLoop ((schema.drop 1).zip vals)
            [("ID", Value.int (new_id_of rows))] = .error e →
        (insert m tn rows vals).2 = .error e ∧ ∃ s, e = .invalidValue s) := by
  refine ⟨?_, ?_, ?_⟩
  · intro m tn rows vals e h
    unfold insert at h ⊢
    cases hg : _get_schema m tn with
    | error e₁ => rfl
    | ok schema =>
      simp only [hg] at h ⊢
      by_cases hlen : (vals.length : Int) ≠ (schema.length : Int) - 1
      · rw [if_pos hlen]
      · rw [if_neg hlen] at h ⊢
        cases hl : insertLoop ((schema.drop 1).zip vals)
            [("ID", Value.int (new_id_of rows))] with
        | error e₁ => rfl
        | ok row =>
          rw [hl] at h
          exact Except.noConfusion h
  · intro m tn rows vals schema hg hlen
    simp only [insert, hg]
    rw [if_pos hlen]
  · intro m tn rows vals schema e hg hlen hl
    constructor
    · simp only [insert, hg]
      rw [if_neg (fun hne => hne hlen), hl]
    · exact insertLoop_error_shape _ _ _ hl

/-- C3 witness: a type-mismatched value and a wrong value count both
fail, the first leaving the caller's rows unchanged, via the general
theorem. -/
theorem insert_invalid_leaves_rows_unchanged_witness :
    (insert exampleMeta "t" [exRow 1 7] [Value.str "x"]).1 = [exRow 1 7] ∧
    (insert exampleMeta "t" [] ([] : List Value)).2 =
      .error (.invalidValue "values_count=0") :=
  ⟨insert_invalid_leaves_rows_unchanged.1 exampleMeta "t" [exRow 1 7]
      [Value.str "x"] (.invalidValue "x") (by decide),
    insert_invalid_leaves_rows_unchanged.2.1 exampleMeta "t" []
      ([] : List Value) [⟨"ID", "int"⟩, ⟨"a", "int"⟩] (by decide) (by decide)⟩

/-- create_table never changes the caller's metadata mapping. -/
theorem create_table_fst (m : Metadata) (tn : String) (cols : List String) :
    (create_table m tn cols).1 = m := by
  simp only [create_table]
  split_ifs with h1 h2 h3
  · rfl
  · rfl
  · rfl
  · cases hpc : parseColumns cols [⟨RESERVED_ID_COLUMN, "int"⟩]
        [RESERVED_ID_COLUMN] <;> rfl

/-- drop_table never changes the caller's metadata mapping. -/
theorem drop_table_fst (m : Metadata) (tn : String) :
    (drop_table m tn).1 = m := by
  simp only [drop_table]
  split_ifs <;> rfl

/-- select never changes the caller's row list. -/
theorem select_fst (rows : List Row) (wc : Option Dict) :
    (select rows wc).1 = rows := by
  match wc with
  | none => rfl
  | some [] => rfl
  | some [(k, v)] => rfl
  | some ((k₁, v₁) :: (k₂, v₂) :: t) => rfl

/-- delete never changes the caller's row list. -/
theorem delete_fst (rows : List Row) (wc : Dict) :
    (delete rows wc).1 = rows := by
  match wc with
  | [] => rfl
  | [(k, v)] => rfl
  | (k₁, v₁) :: (k₂, v₂) :: t => rfl

/-- On a successful insert the caller's list was appended to in place:
the caller-visible list equals the returned one, which is the old list
plus the new row. -/
theorem insert_fst_of_ok (m : Metadata) (tn : String) (rows : List Row)
    (vals : List Value) (r : List Row) (id : Int)
    (h : (insert m tn rows vals).2 = .ok (r, id)) :
    (insert m tn rows vals).1 = r ∧ ∃ row, r = rows ++ [row] := by
  unfold insert at h ⊢
  cases hg : _get_schema m tn with
  | error e => rw [hg] at h; exact Except.noConfusion h
  | ok schema =>
    simp only [hg] at h ⊢
    by_cases hlen : (vals.length : Int) ≠ (schema.length : Int) - 1
    · rw [if_pos hlen] at h
      exact Except.noConfusion h
    · rw [if_neg hlen] at h ⊢
      cases hl : insertLoop ((schema.drop 1).zip vals)
          [("ID", Value.int (new_id_of rows))] with
      | error e =>
        rw [hl] at h
        exact Except.noConfusion h
      | ok row =>
        simp only [hl, Except.ok.injEq, Prod.mk.injEq] at h
        exact ⟨h.1, row, h.1.symm⟩

/-- On a successful update the caller's list contents equal the returned
list (the source updates the rows in place and returns the same list). -/
theorem update_fst_of_ok (m : Metadata) (tn : String) (rows : List Row)
    (setClause wc : Dict) (r : List Row) (n : Nat)
    (h : (update m tn rows setClause wc).2 = .ok (r, n)) :
    (update m tn rows setClause wc).1 = r := by
  unfold update at h ⊢
  cases hg : _get_schema m tn with
  | error e => rw [hg] at h; exact Except.noConfusion h
  | ok schema =>
    simp only [hg] at h ⊢
    by_cases hid : (setClause.lookup "ID").isSome
    · rw [if_pos hid] at h
      exact Except.noConfusion h
    · rw [if_neg hid] at h ⊢
      match wc with
      | [] => exact Except.noConfusion h
      | (k₁, v₁) :: (k₂, v₂) :: t => exact Except.noConfusion h
      | [(wKey, wVal)] =>
        cases he : (updateRows (typesMapOf schema) wKey wVal setClause
            rows).2.2 with
        | some e => simp [he] at h
        | none =>
          simp only [he, Except.ok.injEq, Prod.mk.injEq] at h ⊢
          exact h.1

/-- C4 counterexample to exact type-and-value matching: Python equality
treats True as equal to 1, so a filter value of integer 1 selects a row
whose stored value is the boolean True, although the two values are not
equal as typed scalars. -/
theorem select_type_exact_counterexample :
    (select [[("x", Value.bool true)]] (some [("x", Value.int 1)])).2 =
      Except.ok [[("x", Value.bool true)]] ∧
    Value.bool true ≠ Value.int 1 := by decide

/-- C4 amended: select with a single-key filter returns the
order-preserving subsequence of rows whose value at the key equals the
filter value under Python equality (a boolean compares equal to its 0/1
integer); rows lacking the key are excluded; with no filter it returns
all rows in order; the caller's list is never mutated. -/
theorem select_python_equality :
    (∀ rows, select rows none = (rows, .ok rows)) ∧
    (∀ rows k v,
        select rows (some [(k, v)]) =
          (rows, .ok (rows.filter (fun row => optPyEq (row.lookup k) v)))) ∧
    (∀ rows k v res, (select rows (some [(k, v)])).2 = .ok res →
        res.Sublist rows ∧
        (∀ row ∈ res, optPyEq (row.lookup k) v = true) ∧
        (∀ row ∈ rows, optPyEq (row.lookup k) v = true → row ∈ res) ∧
        (∀ row ∈ res, (row.lookup k).isSome)) ∧
    (∀ rows wc, (select rows wc).1 = rows) := by
  refine ⟨fun _ => rfl, fun _ _ _ => rfl, ?_, select_fst⟩
  intro rows k v res h
  simp only [select, Except.ok.injEq] at h
  subst h
  refine ⟨List.filter_sublist rows, ?_, ?_, ?_⟩
  · intro row hrow
    simpa using List.of_mem_filter hrow
  · intro row hrow hmatch
    exact List.mem_filter.mpr ⟨hrow, by simp [hmatch]⟩
  · intro row hrow
    have hm : optPyEq (row.lookup k) v = true := by
      simpa using List.of_mem_filter hrow
    cases hl : row.lookup k with
    | none => rw [hl] at hm; exact Bool.noConfusion hm
    | some w => rfl

/-- C4 witness: the filter characterization applied to a concrete
one-row table with a matching integer filter. -/
theorem select_python_equality_witness :
    ([exRow 1 7] : List Row).Sublist [exRow 1 7] ∧
    (∀ row ∈ ([exRow 1 7] : List Row),
        optPyEq (row.lookup "a") (Value.int 7) = true) ∧
    (∀ row ∈ ([exRow 1 7] : List Row),
        optPyEq (row.lookup "a") (Value.int 7) = true →
          row ∈ ([exRow 1 7] : List Row)) ∧
    (∀ row ∈ ([exRow 1 7] : List Row), (row.lookup "a").isSome) :=
  select_python_equality.2.2.1 [exRow 1 7] "a" (Value.int 7) [exRow 1 7]
    (by decide)

/-- C6: createTable leaves the caller's metadata untouched in every
case, and creating a second table under the same trimmed name fails with
TableAlreadyExistsError, again leaving the metadata as it was. -/
theorem create_table_duplicate_fails :
    (∀ m tn cols, (create_table m tn cols).1 = m) ∧
    (∀ m tn cols res tn₂ cols₂,
        (create_table m tn cols).2 = .ok res →
        pyStrip tn₂ = pyStrip tn →
        create_table res tn₂ cols₂ =
          (res, .error (.tableAlreadyExists (pyStrip tn₂)))) := by
  refine ⟨create_table_fst, ?_⟩
  intro m tn cols res tn₂ cols₂ h htrim
  simp only [create_table] at h
  by_cases h1 : pyStrip tn = ""
  · rw [if_pos h1] at h
    exact Except.noConfusion h
  · rw [if_neg h1] at h
    by_cases h2 : (m.lookup (pyStrip tn)).isSome
    · rw [if_pos h2] at h
      exact Except.noConfusion h
    · rw [if_neg h2] at h
      by_cases h3 : cols = []
      · rw [if_pos h3] at h
        exact Except.noConfusion h
      · rw [if_neg h3] at h
        cases hpc : parseColumns cols [⟨RESERVED_ID_COLUMN, "int"⟩]
            [RESERVED_ID_COLUMN] with
        | error e => rw [hpc] at h; exact Except.noConfusion h
        | ok parsed =>
          rw [hpc] at h
          simp only [Except.ok.injEq] at h
          have hres : res = setKey m (pyStrip tn)
              (TableEntry.columnsList parsed) := h.symm
          simp only [create_table, htrim]
          rw [if_neg h1]
          have hsome : (res.lookup (pyStrip tn)).isSome := by
            rw [hres, lookup_setKey_self]
            rfl
          rw [if_pos hsome]

/-- C6 witness: concretely creating "t" twice, the second call fails
with TableAlreadyExistsError and hands back the unchanged metadata. -/
theorem create_table_duplicate_fails_witness :
    create_table [("t", TableEntry.columnsList [⟨"ID", "int"⟩, ⟨"a", "int"⟩])]
        "t" ["b:str"] =
      ([("t", TableEntry.columnsList [⟨"ID", "int"⟩, ⟨"a", "int"⟩])],
        .error (.tableAlreadyExists (pyStrip "t"))) :=
  create_table_duplicate_fails.2 [] "t" ["a:int"]
    [("t", TableEntry.columnsList [⟨"ID", "int"⟩, ⟨"a", "int"⟩])] "t"
    ["b:str"] (by decide) (by decide)

/-- C8 counterexample: a successful insert hands back the very list it
appended to in place; the caller's row collection after the call is not
the (empty) collection that was passed in, so insert does mutate
caller-held state. -/
theorem insert_mutates_caller_counterexample :
    (insert exampleMeta "t" [] [Value.int 5]).1 ≠ ([] : List Row) ∧
    (insert exampleMeta "t" [] [Value.int 5]).2 =
      .ok ((insert exampleMeta "t" [] [Value.int 5]).1, 1) := by decide

/-- C8 amended: the Schema Manager operations are copy-on-write on
metadata, and select and delete build fresh row lists, but insert
appends the new row to the caller's row list in place and update assigns
fields of matched rows in place; both return that same mutated
collection rather than new state. -/
theorem copy_on_write_scope :
    (∀ m tn cols, (create_table m tn cols).1 = m) ∧
    (∀ m tn, (drop_table m tn).1 = m) ∧
    (∀ rows wc, (select rows wc).1 = rows) ∧
    (∀ rows wc, (delete rows wc).1 = rows) ∧
    (∀ m tn rows vals r id, (insert m tn rows vals).2 = .ok (r, id) →
        (insert m tn rows vals).1 = r ∧ ∃ row, r = rows ++ [row]) ∧
    (∀ m tn rows setClause wc r n,
        (update m tn rows setClause wc).2 = .ok (r, n) →
        (update m tn rows setClause wc).1 = r) :=
  ⟨create_table_fst, drop_table_fst, select_fst, delete_fst,
    insert_fst_of_ok, update_fst_of_ok⟩

/-- C8 witness: the insert clause of the amended theorem at a concrete
successful insert. -/
theorem copy_on_write_scope_witness :
    (insert exampleMeta "t" [] [Value.int 5]).1 = [exRow 1 5] ∧
    ∃ row, [exRow 1 5] = ([] : List Row) ++ [row] :=
  copy_on_write_scope.2.2.2.2.1 exampleMeta "t" [] [Value.int 5]
    [exRow 1 5] 1 (by decide)

/-- A successful parseColumns run appends to its accumulator exactly the
columns parsed from the tokens, paired with them in input order. -/
theorem parseColumns_ok_shape :
    ∀ (toks : List String) (acc : List Column) (seen : List String)
      (res : List Column), parseColumns toks acc seen = .ok res →
      ∃ tail, res = acc ++ tail ∧
        List.Forall₂
          (fun tok c => _parse_column_type tok = .ok (c.name, c.type))
          toks tail := by
  intro toks
  induction toks with
  | nil =>
    intro acc seen res h
    simp only [parseColumns, Except.ok.injEq] at h
    exact ⟨[], by simp [h], List.Forall₂.nil⟩
  | cons tok rest ih =>
    intro acc seen res h
    simp only [parseColumns] at h
    cases hp : _parse_column_type tok with
    | error e =>
      rw [hp] at h
      exact Except.noConfusion h
    | ok nt =>
      obtain ⟨n, t⟩ := nt
      simp only [hp] at h
      by_cases hmem : n ∈ seen
      · rw [if_pos hmem] at h
        exact Except.noConfusion h
      · rw [if_neg hmem] at h
        obtain ⟨tail, htail, hfa⟩ := ih _ _ _ h
        refine ⟨⟨n, t⟩ :: tail, ?_, List.Forall₂.cons hp hfa⟩
        rw [htail, List.append_assoc]
        rfl

/-- A token whose parsed name was already seen aborts the column loop
with InvalidValueError on that name. -/
theorem parseColumns_duplicate (tok : String) (rest : List String)
    (acc : List Column) (seen : List String) (n t : String)
    (hp : _parse_column_type tok = .ok (n, t)) (hmem : n ∈ seen) :
    parseColumns (tok :: rest) acc seen = .error (.invalidValue n) := by
  simp only [parseColumns, hp]
  rw [if_pos hmem]

/-- What a successful create_table implies: a nonempty trimmed name not
yet present, a successful column parse, and the result being the input
metadata extended with the parsed schema. -/
theorem create_table_ok_inv (m : Metadata) (tn : String)
    (cols : List String) (res : Metadata)
    (h : (create_table m tn cols).2 = .ok res) :
    pyStrip tn ≠ "" ∧ m.lookup (pyStrip tn) = none ∧
    ∃ parsed, parseColumns cols [⟨RESERVED_ID_COLUMN, "int"⟩]
        [RESERVED_ID_COLUMN] = .ok parsed ∧
      res = setKey m (pyStrip tn) (.columnsList parsed) := by
  simp only [create_table] at h
  by_cases h1 : pyStrip tn = ""
  · rw [if_pos h1] at h
    exact Except.noConfusion h
  · rw [if_neg h1] at h
    by_cases h2 : (m.lookup (pyStrip tn)).isSome
    · rw [if_pos h2] at h
      exact Except.noConfusion h
    · rw [if_neg h2] at h
      by_cases h3 : cols = []
      · rw [if_pos h3] at h
        exact Except.noConfusion h
      · rw [if_neg h3] at h
        cases hpc : parseColumns cols [⟨RESERVED_ID_COLUMN, "int"⟩]
            [RESERVED_ID_COLUMN] with
        | error e =>
          rw [hpc] at h
          exact Except.noConfusion h
        | ok parsed =>
          rw [hpc] at h
          simp only [Except.ok.injEq] at h
          exact ⟨h1, Option.not_isSome_iff_eq_none.mp h2, parsed, rfl,
            h.symm⟩

/-- C7: a created table's stored schema is the identity column followed
by the parsed input columns in order (so its first column is always the
identity column), and a column spec fails with InvalidValueError when
the name:type separator is missing, a side is empty after trimming, the
name is the reserved identity name, the type is unsupported, or the name
repeats an earlier column. -/
theorem create_table_schema_shape :
    (∀ m tn cols res, (create_table m tn cols).2 = .ok res →
        ∃ tail, res.lookup (pyStrip tn) =
            some (TableEntry.columnsList
              (⟨RESERVED_ID_COLUMN, "int"⟩ :: tail)) ∧
          List.Forall₂
            (fun tok c => _parse_column_type tok = .ok (c.name, c.type))
            cols tail) ∧
    (∀ tok, ¬ ':' ∈ tok.data →
        _parse_column_type tok = .error (.invalidValue tok)) ∧
    (∀ tok n t, splitOnFirst ':' tok.data = some (n, t) →
        (pyStrip (String.mk n) = "" ∨ pyStrip (String.mk t) = "") →
        _parse_column_type tok = .error (.invalidValue tok)) ∧
    (∀ tok n t, splitOnFirst ':' tok.data = some (n, t) →
        ¬ (pyStrip (String.mk n) = "" ∨ pyStrip (String.mk t) = "") →
        pyStrip (String.mk n) = RESERVED_ID_COLUMN →
        _parse_column_type tok =
          .error (.invalidValue (pyStrip (String.mk n)))) ∧
    (∀ tok n t, splitOnFirst ':' tok.data = some (n, t) →
        ¬ (pyStrip (String.mk n) = "" ∨ pyStrip (String.mk t) = "") →
        pyStrip (String.mk n) ≠ RESERVED_ID_COLUMN →
        ¬ pyStrip (String.mk t) ∈ SUPPORTED_TYPES →
        _parse_column_type tok =
          .error (.invalidValue (pyStrip (String.mk t)))) ∧
    (∀ tok rest acc seen n t, _parse_column_type tok = .ok (n, t) →
        n ∈ seen →
        parseColumns (tok :: rest) acc seen = .error (.invalidValue n)) := by
  refine ⟨?_, ?_, ?_, ?_, ?_, parseColumns_duplicate⟩
  · intro m tn cols res h
    obtain ⟨h1, h2, parsed, hpc, hres⟩ := create_table_ok_inv m tn cols res h
    obtain ⟨tail, htail, hfa⟩ := parseColumns_ok_shape cols _ _ _ hpc
    refine ⟨tail, ?_, hfa⟩
    rw [hres, lookup_setKey_self, htail]
    rfl
  · intro tok hn
    simp only [_parse_column_type,
      (splitOnFirst_eq_none_iff ':' tok.data).mpr hn]
  · intro tok n t hsplit hempty
    simp only [_parse_column_type, hsplit]
    rw [if_pos hempty]
  · intro tok n t hsplit hempty hid
    simp only [_parse_column_type, hsplit]
    rw [if_neg hempty, if_pos hid]
  · intro tok n t hsplit hempty hid hsup
    simp only [_parse_column_type, hsplit]
    rw [if_neg hempty, if_neg hid, if_pos hsup]

/-- C7 witness: the schema-shape clause applied to concretely creating a
table with one column spec. -/
theorem create_table_schema_shape_witness :
    ∃ tail,
      (List.lookup (pyStrip "t")
          [("t", TableEntry.columnsList [⟨"ID", "int"⟩, ⟨"a", "int"⟩])]) =
        some (TableEntry.columnsList
          (⟨RESERVED_ID_COLUMN, "int"⟩ :: tail)) ∧
      List.Forall₂
        (fun tok c => _parse_column_type tok = .ok (c.name, c.type))
        ["a:int"] tail :=
  create_table_schema_shape.1 [] "t" ["a:int"]
    [("t", TableEntry.columnsList [⟨"ID", "int"⟩, ⟨"a", "int"⟩])]
    (by decide)

end PrimitiveDb
